import Mathlib

/-!
Verification of the transcript-hash state machine in `src/hash_hs.rs`
(rustls).  Bytes are modelled as `Nat`, byte buffers as `List Nat`.  The
external digest primitive (`ring::digest`) is modelled by an `Algorithm`
carrying its digest function, and an incremental `Context` is modelled as
the algorithm together with the list of all bytes fed so far; `finish`
applies the digest to that input.  Structures and operations mirror
`HandshakeHashBuffer` and `HandshakeHash` field by field and line by line.
-/

namespace HashHs

/-- A digest algorithm (the external `ring::digest::Algorithm` collaborator):
all the component observes of it is the digest it assigns to a byte string. -/
structure Algorithm where
  digest : List Nat → List Nat

/-- Model of `ring::digest::Context`: an incremental digest computation,
represented by its algorithm and the bytes fed so far. -/
structure Context where
  alg : Algorithm
  input : List Nat

/-- `digest::Context::new(alg)`. -/
def Context.new (alg : Algorithm) : Context := ⟨alg, []⟩

/-- `ctx.update(buf)`: append bytes to the accumulated input. -/
def Context.update (c : Context) (buf : List Nat) : Context :=
  ⟨c.alg, c.input ++ buf⟩

/-- `ctx.finish()`: the digest of everything fed so far. -/
def Context.finish (c : Context) : List Nat := c.alg.digest c.input

/-- `ctx.algorithm()`. -/
def Context.algorithm (c : Context) : Algorithm := c.alg

/-- Model of `MessagePayload` (external message collaborator): the component
only distinguishes the `Handshake` kind, for which it obtains the canonical
encoding; every other kind is opaque. -/
inductive MessagePayload where
  | Handshake (encoding : List Nat)
  | ChangeCipherSpec
  | Alert
  | ApplicationData (data : List Nat)

/-- Whether a payload is a handshake-protocol message. -/
def MessagePayload.isHandshake : MessagePayload → Bool
  | .Handshake _ => true
  | _ => false

/-- Model of `Message`: the component inspects only the payload. -/
structure Message where
  payload : MessagePayload

/-- Modelled from the spec: `HandshakeMessagePayload::build_handshake_hash`
followed by `get_encoding` lives in `msgs/handshake.rs`, which is not part of
the sources; the spec describes it as producing "the canonical encoding of a
fixed transcript-summary handshake message type" carrying the raw digest
bytes as payload.  We model it as a fixed message-type byte, a three-byte
big-endian length, then the digest bytes. -/
def buildHandshakeHashEncoding (d : List Nat) : List Nat :=
  254 :: (d.length / 65536) % 256 :: (d.length / 256) % 256 :: d.length % 256 :: d

/-- `HandshakeHashBuffer`: accumulates raw message bytes before the hash
algorithm is chosen. -/
structure HandshakeHashBuffer where
  buffer : List Nat
  client_auth_enabled : Bool

/-- `HandshakeHashBuffer::new()`. -/
def HandshakeHashBuffer.new : HandshakeHashBuffer := ⟨[], false⟩

/-- `HandshakeHashBuffer::set_client_auth_enabled()`. -/
def HandshakeHashBuffer.set_client_auth_enabled (b : HandshakeHashBuffer) :
    HandshakeHashBuffer :=
  { b with client_auth_enabled := true }

/-- `HandshakeHashBuffer::add_message(m)`: append the encoding of a
handshake message; other payloads are ignored. -/
def HandshakeHashBuffer.add_message (b : HandshakeHashBuffer) (m : Message) :
    HandshakeHashBuffer :=
  match m.payload with
  | .Handshake enc => { b with buffer := b.buffer ++ enc }
  | _ => b

/-- `HandshakeHashBuffer::update_raw(buf)`. -/
def HandshakeHashBuffer.update_raw (b : HandshakeHashBuffer) (buf : List Nat) :
    HandshakeHashBuffer :=
  { b with buffer := b.buffer ++ buf }

/-- `HandshakeHashBuffer::get_hash_given(hash, extra)`. -/
def HandshakeHashBuffer.get_hash_given (b : HandshakeHashBuffer)
    (hash : Algorithm) (extra : List Nat) : List Nat :=
  (((Context.new hash).update b.buffer).update extra).finish

/-- `HandshakeHash`: the incremental-hashing phase, with optional
client-auth retention buffer. -/
structure HandshakeHash where
  ctx : Context
  client_auth_enabled : Bool
  buffer : List Nat

/-- `HandshakeHashBuffer::start_hash(alg)`: consume the accumulator,
seed a fresh context with the whole buffer, and discard the buffer unless
client-auth retention was enabled. -/
def HandshakeHashBuffer.start_hash (b : HandshakeHashBuffer) (alg : Algorithm) :
    HandshakeHash :=
  let ctx := (Context.new alg).update b.buffer
  { ctx := ctx
    client_auth_enabled := b.client_auth_enabled
    buffer := if b.client_auth_enabled then b.buffer else [] }

/-- `HandshakeHash::abandon_client_auth()`. -/
def HandshakeHash.abandon_client_auth (h : HandshakeHash) : HandshakeHash :=
  { h with client_auth_enabled := false, buffer := [] }

/-- `HandshakeHash::update_raw(buf)`: the single point feeding both the
context and (when retention is on) the side buffer. -/
def HandshakeHash.update_raw (h : HandshakeHash) (buf : List Nat) :
    HandshakeHash :=
  { h with
    ctx := h.ctx.update buf
    buffer := if h.client_auth_enabled then h.buffer ++ buf else h.buffer }

/-- `HandshakeHash::add_message(m)`. -/
def HandshakeHash.add_message (h : HandshakeHash) (m : Message) :
    HandshakeHash :=
  match m.payload with
  | .Handshake enc => h.update_raw enc
  | _ => h

/-- `HandshakeHash::get_hash_given(extra)`: clone the context, update the
clone with `extra`, finish the clone. -/
def HandshakeHash.get_hash_given (h : HandshakeHash) (extra : List Nat) :
    List Nat :=
  (h.ctx.update extra).finish

/-- `HandshakeHash::into_hrr_buffer()`. -/
def HandshakeHash.into_hrr_buffer (h : HandshakeHash) : HandshakeHashBuffer :=
  { client_auth_enabled := h.client_auth_enabled
    buffer := buildHandshakeHashEncoding h.ctx.finish }

/-- `HandshakeHash::rollup_for_hrr()`: finalize the current context, replace
it by a fresh one for the same algorithm, and feed the synthetic
handshake-hash message through `update_raw`. -/
def HandshakeHash.rollup_for_hrr (h : HandshakeHash) : HandshakeHash :=
  let old_hash := h.ctx.finish
  ({ h with ctx := Context.new h.ctx.algorithm }).update_raw
    (buildHandshakeHashEncoding old_hash)

/-- `HandshakeHash::get_current_hash()`. -/
def HandshakeHash.get_current_hash (h : HandshakeHash) : List Nat :=
  h.ctx.finish

/-- `HandshakeHash::take_handshake_buf()`.  The guard is a `debug_assert!`,
so it only fires when debug assertions are compiled in; `dbg` records that
build configuration.  `none` models the panic; otherwise the buffer is
swapped with an empty one and returned. -/
def HandshakeHash.take_handshake_buf (dbg : Bool) (h : HandshakeHash) :
    Option (List Nat × HandshakeHash) :=
  if dbg && !h.client_auth_enabled then none
  else some (h.buffer, { h with buffer := [] })

/-- `HandshakeHash::algorithm()`. -/
def HandshakeHash.algorithm (h : HandshakeHash) : Algorithm :=
  h.ctx.algorithm

/-- Feed a list of raw byte chunks through `HandshakeHash.update_raw`. -/
def feedAll (h : HandshakeHash) (chunks : List (List Nat)) : HandshakeHash :=
  chunks.foldl HandshakeHash.update_raw h

/-- Feed a list of handshake-message encodings through
`HandshakeHash.add_message`. -/
def feedMsgs (h : HandshakeHash) (encs : List (List Nat)) : HandshakeHash :=
  encs.foldl (fun h e => h.add_message ⟨.Handshake e⟩) h

/-- Feed a list of handshake-message encodings through
`HandshakeHashBuffer.add_message`. -/
def accFeedMsgs (b : HandshakeHashBuffer) (encs : List (List Nat)) :
    HandshakeHashBuffer :=
  encs.foldl (fun b e => b.add_message ⟨.Handshake e⟩) b

/-- A concrete digest algorithm for evaluating the model on closed inputs. -/
def idAlg : Algorithm := ⟨fun l => l⟩

/-- A concrete `HandshakeHash` with client-auth retention enabled. -/
def hhSample : HandshakeHash := ⟨⟨idAlg, [9]⟩, true, [9]⟩

/-- A concrete `HandshakeHash` with client-auth retention disabled. -/
def hhNoAuth : HandshakeHash := ⟨⟨idAlg, []⟩, false, []⟩

/-- A concrete `HandshakeHashBuffer`. -/
def hhbSample : HandshakeHashBuffer := ⟨[7], false⟩

theorem feedAll_ctx (h : HandshakeHash) (cs : List (List Nat)) :
    (feedAll h cs).ctx = h.ctx.update cs.flatten := by
  induction cs generalizing h with
  | nil => simp [feedAll, Context.update]
  | cons c cs ih =>
    have h2 := ih (h.update_raw c)
    simp only [feedAll, List.foldl_cons] at h2 ⊢
    rw [h2]
    simp [HandshakeHash.update_raw, Context.update, List.append_assoc]

theorem feedAll_flag (h : HandshakeHash) (cs : List (List Nat)) :
    (feedAll h cs).client_auth_enabled = h.client_auth_enabled := by
  induction cs generalizing h with
  | nil => rfl
  | cons c cs ih => exact ih (h.update_raw c)

theorem feedAll_buffer (h : HandshakeHash) (cs : List (List Nat)) :
    (feedAll h cs).buffer =
      if h.client_auth_enabled then h.buffer ++ cs.flatten else h.buffer := by
  induction cs generalizing h with
  | nil => cases h.client_auth_enabled <;> simp [feedAll]
  | cons c cs ih =>
    have h2 := ih (h.update_raw c)
    simp only [feedAll, List.foldl_cons] at h2 ⊢
    rw [h2]
    cases hc : h.client_auth_enabled <;>
      simp [HandshakeHash.update_raw, hc, List.append_assoc]

theorem feedMsgs_eq_feedAll (h : HandshakeHash) (encs : List (List Nat)) :
    feedMsgs h encs = feedAll h encs := by
  induction encs generalizing h with
  | nil => rfl
  | cons e es ih => exact ih (h.add_message ⟨.Handshake e⟩)

theorem accFeedMsgs_buffer (b : HandshakeHashBuffer) (encs : List (List Nat)) :
    (accFeedMsgs b encs).buffer = b.buffer ++ encs.flatten := by
  induction encs generalizing b with
  | nil => simp [accFeedMsgs]
  | cons e es ih =>
    have h2 := ih (b.add_message ⟨.Handshake e⟩)
    simp only [accFeedMsgs, List.foldl_cons] at h2 ⊢
    rw [h2]
    simp [HandshakeHashBuffer.add_message, List.append_assoc]

theorem accFeedMsgs_flag (b : HandshakeHashBuffer) (encs : List (List Nat)) :
    (accFeedMsgs b encs).client_auth_enabled = b.client_auth_enabled := by
  induction encs generalizing b with
  | nil => rfl
  | cons e es ih => exact ih (b.add_message ⟨.Handshake e⟩)

/-- C1: for every sequence of handshake-message encodings fed to a fresh
accumulator (with or without client-auth retention enabled), transitioned
into a `HandshakeHash` via `start_hash(alg)`, then extended with further
handshake-message encodings, `get_current_hash` equals the digest under
`alg` of the concatenation of all the encodings in order; the right-hand
side does not mention the retention flag, so the digest is the same whether
or not retention was enabled. -/
theorem c1_transcript_digest (alg : Algorithm) (retain : Bool)
    (encs1 encs2 : List (List Nat)) :
    (feedMsgs
        ((accFeedMsgs
            (if retain then HandshakeHashBuffer.new.set_client_auth_enabled
             else HandshakeHashBuffer.new) encs1).start_hash alg)
        encs2).get_current_hash
      = alg.digest ((encs1 ++ encs2).flatten) := by
  rw [feedMsgs_eq_feedAll]
  have hb : (accFeedMsgs
      (if retain then HandshakeHashBuffer.new.set_client_auth_enabled
       else HandshakeHashBuffer.new) encs1).buffer = encs1.flatten := by
    rw [accFeedMsgs_buffer]
    cases retain <;>
      simp [HandshakeHashBuffer.new, HandshakeHashBuffer.set_client_auth_enabled]
  simp [HandshakeHash.get_current_hash, Context.finish, feedAll_ctx,
    HandshakeHashBuffer.start_hash, Context.new, Context.update, hb]

/-- C2: with retention enabled before the transition, after feeding
encodings `encs1` to the accumulator, transitioning via `start_hash`, and
feeding encodings `encs2`, the retained buffer is exactly the concatenation
of all the encodings; `take_handshake_buf` returns exactly that value and
leaves the buffer empty, and an immediately following second call returns
the empty sequence. -/
theorem c2_retained_buffer (alg : Algorithm) (dbg : Bool)
    (encs1 encs2 : List (List Nat)) :
    (feedMsgs ((accFeedMsgs HandshakeHashBuffer.new.set_client_auth_enabled
        encs1).start_hash alg) encs2).buffer = (encs1 ++ encs2).flatten ∧
    (feedMsgs ((accFeedMsgs HandshakeHashBuffer.new.set_client_auth_enabled
        encs1).start_hash alg) encs2).take_handshake_buf dbg
      = some ((encs1 ++ encs2).flatten,
          { feedMsgs ((accFeedMsgs HandshakeHashBuffer.new.set_client_auth_enabled
              encs1).start_hash alg) encs2 with buffer := [] }) ∧
    ({ feedMsgs ((accFeedMsgs HandshakeHashBuffer.new.set_client_auth_enabled
        encs1).start_hash alg) encs2 with buffer := [] }
        : HandshakeHash).take_handshake_buf dbg
      = some ([],
          { feedMsgs ((accFeedMsgs HandshakeHashBuffer.new.set_client_auth_enabled
              encs1).start_hash alg) encs2 with buffer := [] }) := by
  have hfl : (accFeedMsgs HandshakeHashBuffer.new.set_client_auth_enabled
      encs1).client_auth_enabled = true := by
    rw [accFeedMsgs_flag]; rfl
  have hb : (accFeedMsgs HandshakeHashBuffer.new.set_client_auth_enabled
      encs1).buffer = encs1.flatten := by
    rw [accFeedMsgs_buffer]
    simp [HandshakeHashBuffer.new, HandshakeHashBuffer.set_client_auth_enabled]
  have hflag2 : (feedMsgs ((accFeedMsgs
      HandshakeHashBuffer.new.set_client_auth_enabled
      encs1).start_hash alg) encs2).client_auth_enabled = true := by
    rw [feedMsgs_eq_feedAll, feedAll_flag]
    simp [HandshakeHashBuffer.start_hash, hfl]
  have hbuf2 : (feedMsgs ((accFeedMsgs
      HandshakeHashBuffer.new.set_client_auth_enabled
      encs1).start_hash alg) encs2).buffer = (encs1 ++ encs2).flatten := by
    rw [feedMsgs_eq_feedAll, feedAll_buffer]
    simp [HandshakeHashBuffer.start_hash, hfl, hb]
  refine ⟨hbuf2, ?_, ?_⟩
  · simp [HandshakeHash.take_handshake_buf, hflag2, hbuf2]
  · simp [HandshakeHash.take_handshake_buf, hflag2]

/-- C3: `rollup_for_hrr` finalizes the current digest, builds the synthetic
handshake-hash message from it, restarts the context for the same
algorithm, and feeds the synthetic encoding through the raw-update path:
afterwards `get_current_hash` is the digest (under the unchanged algorithm)
of exactly that synthetic encoding; the retention flag is unchanged and,
when retention is enabled, the synthetic encoding is appended to the
retained buffer (otherwise the buffer is unchanged). -/
theorem c3_rollup_for_hrr (h : HandshakeHash) :
    (h.rollup_for_hrr).get_current_hash
      = h.algorithm.digest (buildHandshakeHashEncoding h.get_current_hash) ∧
    (h.rollup_for_hrr).algorithm = h.algorithm ∧
    (h.rollup_for_hrr).client_auth_enabled = h.client_auth_enabled ∧
    (h.rollup_for_hrr).buffer
      = (if h.client_auth_enabled
         then h.buffer ++ buildHandshakeHashEncoding h.get_current_hash
         else h.buffer) := by
  refine ⟨?_, rfl, rfl, ?_⟩
  · simp [HandshakeHash.rollup_for_hrr, HandshakeHash.update_raw,
      HandshakeHash.get_current_hash, HandshakeHash.algorithm,
      Context.finish, Context.update, Context.new, Context.algorithm]
  · cases hc : h.client_auth_enabled <;>
      simp [HandshakeHash.rollup_for_hrr, HandshakeHash.update_raw, hc,
        HandshakeHash.get_current_hash, Context.finish]

/-- C4: `into_hrr_buffer` returns an accumulator whose buffer is exactly
the synthetic handshake-hash message's encoding built from the finalized
current digest (any previously retained buffer contents are discarded) and
whose retention flag equals the consumed hash's retention flag. -/
theorem c4_into_hrr_buffer (h : HandshakeHash) :
    (h.into_hrr_buffer).buffer
      = buildHandshakeHashEncoding h.get_current_hash ∧
    (h.into_hrr_buffer).client_auth_enabled = h.client_auth_enabled :=
  ⟨rfl, rfl⟩

/-- C5: `get_hash_given extra` returns the digest of the context's
accumulated input extended with `extra`; it is a pure function of the
state, so the live context, retention flag and retained buffer are
untouched, and in particular `get_hash_given []` coincides with
`get_current_hash`. -/
theorem c5_peek_hash (h : HandshakeHash) (extra : List Nat) :
    h.get_hash_given extra = h.algorithm.digest (h.ctx.input ++ extra) ∧
    h.get_hash_given [] = h.get_current_hash := by
  refine ⟨rfl, ?_⟩
  simp [HandshakeHash.get_hash_given, Context.update, Context.finish,
    HandshakeHash.get_current_hash]

/-- C6: after `abandon_client_auth`, the retained buffer is empty and stays
empty under every subsequent sequence of raw updates (retention cannot
resume: the flag stays false), while the digest context after those updates
is exactly the context the un-abandoned state would have had. -/
theorem c6_abandon_client_auth (h : HandshakeHash) (cs : List (List Nat)) :
    (feedAll h.abandon_client_auth cs).buffer = [] ∧
    (feedAll h.abandon_client_auth cs).client_auth_enabled = false ∧
    (feedAll h.abandon_client_auth cs).ctx = (feedAll h cs).ctx := by
  refine ⟨?_, ?_, ?_⟩
  · rw [feedAll_buffer]; simp [HandshakeHash.abandon_client_auth]
  · rw [feedAll_flag]; rfl
  · rw [feedAll_ctx, feedAll_ctx]; rfl

/-- C7: for every message that is not a handshake-protocol message,
`add_message` is a silent no-op on both the accumulator and the hash: the
resulting state is identical to the state before the call. -/
theorem c7_non_handshake_noop (b : HandshakeHashBuffer) (h : HandshakeHash)
    (m : Message) (hm : m.payload.isHandshake = false) :
    b.add_message m = b ∧ h.add_message m = h := by
  cases hmp : m.payload with
  | Handshake enc => rw [hmp] at hm; simp [MessagePayload.isHandshake] at hm
  | ChangeCipherSpec =>
      exact ⟨by simp [HandshakeHashBuffer.add_message, hmp],
             by simp [HandshakeHash.add_message, hmp]⟩
  | Alert =>
      exact ⟨by simp [HandshakeHashBuffer.add_message, hmp],
             by simp [HandshakeHash.add_message, hmp]⟩
  | ApplicationData d =>
      exact ⟨by simp [HandshakeHashBuffer.add_message, hmp],
             by simp [HandshakeHash.add_message, hmp]⟩

/-- Witness for C7 at a concrete non-handshake message. -/
theorem c7_witness :
    (MessagePayload.Alert).isHandshake = false ∧
    (hhbSample.add_message ⟨.Alert⟩ = hhbSample ∧
     hhSample.add_message ⟨.Alert⟩ = hhSample) :=
  ⟨rfl, c7_non_handshake_noop hhbSample hhSample ⟨.Alert⟩ rfl⟩

/-- C8 counterexample: the guard in `take_handshake_buf` is a
`debug_assert!`, not an unconditional runtime check: with debug assertions
compiled out, the call on a state with retention disabled does not abort
but returns a buffer. -/
theorem c8_counterexample :
    hhNoAuth.client_auth_enabled = false ∧
    (hhNoAuth.take_handshake_buf false).isSome = true :=
  ⟨rfl, rfl⟩

/-- C8 (amended): calling `take_handshake_buf` with retention disabled
fails the `debug_assert!` when debug assertions are compiled in (an abort,
not a recoverable error value); when they are compiled out, the check
vanishes and the call silently returns the buffer. -/
theorem c8_take_requires_retention (h : HandshakeHash)
    (hc : h.client_auth_enabled = false) :
    h.take_handshake_buf true = none ∧
    h.take_handshake_buf false = some (h.buffer, { h with buffer := [] }) := by
  simp [HandshakeHash.take_handshake_buf, hc]

/-- Witness for the amended C8 at a concrete retention-disabled state. -/
theorem c8_witness :
    hhNoAuth.client_auth_enabled = false ∧
    (hhNoAuth.take_handshake_buf true = none ∧
     hhNoAuth.take_handshake_buf false
       = some (hhNoAuth.buffer, { hhNoAuth with buffer := [] })) :=
  ⟨rfl, c8_take_requires_retention hhNoAuth rfl⟩

/-- C9: the two retry paths agree when the algorithm is unchanged: the hash
after `rollup_for_hrr` equals the hash after `into_hrr_buffer` followed by
`start_hash` with the same algorithm — both are the digest of exactly the
synthetic handshake-hash message's encoding — and both paths preserve the
retention flag. -/
theorem c9_retry_paths_agree (h : HandshakeHash) :
    (h.rollup_for_hrr).get_current_hash
      = ((h.into_hrr_buffer).start_hash h.algorithm).get_current_hash ∧
    ((h.into_hrr_buffer).start_hash h.algorithm).get_current_hash
      = h.algorithm.digest (buildHandshakeHashEncoding h.get_current_hash) ∧
    (h.rollup_for_hrr).client_auth_enabled = h.client_auth_enabled ∧
    ((h.into_hrr_buffer).start_hash h.algorithm).client_auth_enabled
      = h.client_auth_enabled := by
  refine ⟨?_, ?_, rfl, rfl⟩ <;>
    simp [HandshakeHash.rollup_for_hrr, HandshakeHash.update_raw,
      HandshakeHash.into_hrr_buffer, HandshakeHashBuffer.start_hash,
      HandshakeHash.get_current_hash, HandshakeHash.algorithm,
      Context.finish, Context.update, Context.new, Context.algorithm]

/-- C10: `take_handshake_buf` leaves the retention flag unchanged: with
retention enabled, a take empties the buffer but retention continues, so
bytes fed after the take accumulate again, and a later take returns exactly
the bytes fed between the two takes. -/
theorem c10_take_keeps_retention (dbg : Bool) (h : HandshakeHash)
    (cs : List (List Nat)) (hr : h.client_auth_enabled = true) :
    h.take_handshake_buf dbg = some (h.buffer, { h with buffer := [] }) ∧
    ({ h with buffer := [] } : HandshakeHash).client_auth_enabled = true ∧
    (feedAll { h with buffer := [] } cs).take_handshake_buf dbg
      = some (cs.flatten,
          { feedAll { h with buffer := [] } cs with buffer := [] }) := by
  have hf : (feedAll { h with buffer := [] } cs).client_auth_enabled
      = true := by
    rw [feedAll_flag]; exact hr
  have hb : (feedAll { h with buffer := [] } cs).buffer = cs.flatten := by
    rw [feedAll_buffer]; simp [hr]
  refine ⟨?_, hr, ?_⟩
  · simp [HandshakeHash.take_handshake_buf, hr]
  · simp [HandshakeHash.take_handshake_buf, hf, hb]

/-- Witness for C10 at a concrete retention-enabled state. -/
theorem c10_witness :
    hhSample.client_auth_enabled = true ∧
    (hhSample.take_handshake_buf true
        = some (hhSample.buffer, { hhSample with buffer := [] }) ∧
     ({ hhSample with buffer := [] } : HandshakeHash).client_auth_enabled
        = true ∧
     (feedAll { hhSample with buffer := [] } [[1], [2, 3]]).take_handshake_buf
        true
        = some ([[1], [2, 3]].flatten,
            { feedAll { hhSample with buffer := [] } [[1], [2, 3]] with
                buffer := [] })) :=
  ⟨rfl, c10_take_keeps_retention true hhSample [[1], [2, 3]] rfl⟩

end HashHs
